import Mathlib

/-!
Verification of the `registry` package of shogo82148/docker-image-update-checker.

Go strings are embedded as `List Char`; Go maps as association lists whose
lookup returns the most recently inserted binding; wall-clock time as a `Nat`
counter ticked by a `World` record that also carries the registry's pending
responses (the network oracle) and ghost logs counting the HTTP exchanges.
The per-host token lock serializes the bodies of `refreshToken`, so a
concurrent execution of the token cache is embedded as a sequence of those
bodies, each carrying the request time its caller recorded before blocking
on the lock.
-/

/-- Splits a list at the first occurrence of `c`: `some (before, after)` when
`c` occurs, `none` otherwise.  Embeds the `strings.IndexRune` + slicing idiom
of the Go source. -/
def splitFirst (c : Char) : List Char → Option (List Char × List Char)
  | [] => none
  | x :: xs =>
    if x = c then some ([], xs)
    else (splitFirst c xs).map (fun p => (x :: p.1, p.2))

/-- `const dockerHubHost = "registry-1.docker.io"` from the Go source. -/
def dockerHubHost : List Char := "registry-1.docker.io".data

/-- Embedding of `GetRepository` (registry.go): split the tag at the first `:`
(default `"latest"`), then decide host/repository from the first `/` and a `.`
in the leading segment. -/
def GetRepository (image : List Char) : List Char × List Char × List Char :=
  let p :=
    match splitFirst ':' image with
    | some q => q
    | none => (image, "latest".data)
  match splitFirst '/' p.1 with
  | some q =>
    if q.1.contains '.' then
      -- Docker registry v2 API
      (q.1, q.2, p.2)
    else
      -- Third party image on DockerHub
      (dockerHubHost, p.1, p.2)
  | none =>
    -- Official Image on DockerHub
    (dockerHubHost, "library/".data ++ p.1, p.2)

/-- The character class `[a-zA-Z0-9_]` of the Go pattern `partRegexp`. -/
def isWordChar (c : Char) : Bool :=
  ('a' ≤ c && c ≤ 'z') || ('A' ≤ c && c ≤ 'Z') || ('0' ≤ c && c ≤ '9') || c == '_'

/-- One leftmost-anchored match of the Go regular expression
`[a-zA-Z0-9_]+="[^"]*"` at the head of `s`, returning the key, the value with
its quotes already stripped (the `strings.SplitN(part, "=", 2)` and
`kv[1][1:len(kv[1])-1]` post-processing of the Go loop), and the unconsumed
remainder.  Greedy matching of `+` and `*` collapses to taking maximal runs,
because a shortened run of word characters is still followed by a word
character and can never be followed by `=`. -/
def matchPair (s : List Char) : Option ((List Char × List Char) × List Char) :=
  if s.takeWhile isWordChar = [] then none
  else
    match s.dropWhile isWordChar with
    | '=' :: '"' :: rest =>
      match rest.dropWhile (fun c => c ≠ '"') with
      | '"' :: rest2 =>
        some ((s.takeWhile isWordChar, rest.takeWhile (fun c => c ≠ '"')), rest2)
      | _ => none
    | _ => none

/-- `partRegexp.FindAllString(params, -1)` (with the Go loop's key/value
post-processing folded in): repeatedly take the leftmost match, resume after
it, and skip one character when no match starts here.  The fuel argument only
bounds the recursion; `scanParamsFuel_congr` shows any fuel of at least the
list's length computes the same result. -/
def scanParamsFuel : Nat → List Char → List (List Char × List Char)
  | 0, _ => []
  | _, [] => []
  | fuel + 1, c :: rest =>
    match matchPair (c :: rest) with
    | some (kv, r) => kv :: scanParamsFuel fuel r
    | none => scanParamsFuel fuel rest

/-- All key/value matches of `partRegexp` in `s`, leftmost first. -/
def scanParams (s : List Char) : List (List Char × List Char) :=
  scanParamsFuel s.length s

/-- Go map / `http.Header` read: value of the most recently inserted binding
of `k`, or `none`. -/
def mapLookup {α : Type} : List (List Char × α) → List Char → Option α
  | [], _ => none
  | kv :: rest, k => if kv.1 = k then some kv.2 else mapLookup rest k

/-- Go map write `m[k] = v`: the new binding shadows any previous one. -/
def mapInsert {α : Type} (m : List (List Char × α)) (k : List Char) (v : α) :
    List (List Char × α) :=
  (k, v) :: m

/-- Read of a Go `map[string]string` (also `http.Header.Get`): missing keys
give the empty string. -/
def assocGet (m : List (List Char × List Char)) (key : List Char) : List Char :=
  (mapLookup m key).getD []

/-- The `result[kv[0]] = kv[1][...]` loop of `parseWWWAuthenticate`: assign
every match into the map in order, later keys shadowing earlier ones. -/
def buildParams (pairs : List (List Char × List Char)) :
    List (List Char × List Char) :=
  pairs.foldl (fun m kv => mapInsert m kv.1 kv.2) []

/-- Errors of the embedded client.  `registryError` mirrors the Go struct of
the same name (status code plus response header); `tokenFetchFailed` mirrors
the `fmt.Errorf("failed to get token: %w", err)` wrapping in `refreshToken`;
`netError` stands for any transport-level failure of `http.Client.Do`
(including context cancellation), `decodeError` for a JSON decoding failure,
`noToken` for `errors.New("response does not contains token")`, and the last
two for the two errors of `parseWWWAuthenticate`. -/
inductive GoError where
  | registryError (statusCode : Nat) (header : List (List Char × List Char))
  | netError
  | decodeError
  | noToken
  | tokenFetchFailed (e : GoError)
  | authTypeNotFound
  | unknownAuthType (authType : List Char)
  deriving DecidableEq, Repr

instance {ε α : Type} [DecidableEq ε] [DecidableEq α] : DecidableEq (Except ε α) :=
  fun x y =>
    match x, y with
    | .ok a, .ok b => if h : a = b then isTrue (by rw [h]) else isFalse (by simp [h])
    | .error a, .error b => if h : a = b then isTrue (by rw [h]) else isFalse (by simp [h])
    | .ok _, .error _ => isFalse (by simp)
    | .error _, .ok _ => isFalse (by simp)

/-- Embedding of `parseWWWAuthenticate`: split the scheme at the first space
(`strings.IndexRune(value, ' ')`), require scheme `"Bearer"`, then collect
every `key="value"` match of `partRegexp` into the params map. -/
def parseWWWAuthenticate (value : List Char) :
    Except GoError (List (List Char × List Char)) :=
  match splitFirst ' ' value with
  | none => .error .authTypeNotFound
  | some q =>
    if q.1 ≠ "Bearer".data then .error (.unknownAuthType q.1)
    else .ok (buildParams (scanParams q.2))

/-- ASCII embedding of `unicode.ToLower`, one character. -/
def toLowerChar (c : Char) : Char :=
  if 65 ≤ c.toNat ∧ c.toNat ≤ 90 then Char.ofNat (c.toNat + 32) else c

/-- Embedding of `strings.ToLower`. -/
def toLower (s : List Char) : List Char := s.map toLowerChar

/-- `registryToken`: the cached token value and the time it was obtained.
The Go zero value `registryToken{}` is the empty token with time zero (wall
clock ticks start at 1, so time zero is `.After` nothing). -/
structure RegistryToken where
  token : List Char
  updatedAt : Nat
  deriving DecidableEq, Repr

/-- `loginInfo` from the Go source. -/
structure LoginInfo where
  username : List Char
  password : List Char
  deriving DecidableEq, Repr

/-- The mutable fields of `Client`: the per-host token cache and login info.
A `nil` Go map and an empty one are indistinguishable through lookups, so
both embed as `[]`. -/
structure ClientState where
  tokens : List (List Char × RegistryToken)
  loginInfo : List (List Char × LoginInfo)
  deriving DecidableEq, Repr

/-- `Platform` of a manifest-list entry. -/
structure ImagePlatform where
  architecture : List Char
  os : List Char
  variant : List Char
  deriving DecidableEq, Repr

/-- One entry of a manifest list. -/
structure Manifest where
  digest : List Char
  mediaType : List Char
  platform : Option ImagePlatform
  size : Int
  deriving DecidableEq, Repr

/-- `Config` of a single manifest. -/
structure Config where
  mediaType : List Char
  size : Int
  digest : List Char
  deriving DecidableEq, Repr

/-- `Layer` of a single manifest. -/
structure Layer where
  mediaType : List Char
  size : Int
  digest : List Char
  deriving DecidableEq, Repr

/-- The decoded manifest document (`Manifests` in the Go source): either the
`manifests` group or the `config`/`layers` group is populated, depending on
the fields present in the response body. -/
structure Manifests where
  schemaVersion : Int
  mediaType : List Char
  manifests : List Manifest
  config : Option Config
  layers : List Layer
  deriving DecidableEq, Repr

/-- One token-endpoint response: HTTP status, response header, and the decode
result of the body (`Except.error` = malformed JSON, otherwise the value of
the token field, empty when the field is missing or empty). -/
structure TokenResp where
  status : Nat
  header : List (List Char × List Char)
  body : Except Unit (List Char)
  deriving DecidableEq, Repr

/-- One manifest-endpoint response: HTTP status, response header, and the
decoded body (`none` = the 200 body fails to decode). -/
structure ManifestResp where
  status : Nat
  header : List (List Char × List Char)
  body : Option Manifests
  deriving DecidableEq, Repr

/-- Ghost record of one manifest GET as it leaves the client: the URL
components of `https://{host}/v2/{repo}/manifests/{tag}` and the bearer token
attached (empty = anonymous request). -/
structure ManifestReq where
  host : List Char
  repo : List Char
  tag : List Char
  auth : List Char
  deriving DecidableEq, Repr

/-- The network and time environment: a clock, the pending responses of the
token endpoint and of the manifest endpoint (consumed in order; an exhausted
list or a `none` entry is a transport failure, e.g. a cancelled request), a
counter of token-endpoint calls, and a ghost log of issued manifest GETs. -/
structure World where
  now : Nat
  tokenResps : List (Option TokenResp)
  manifestResps : List (Option ManifestResp)
  tokenCalls : Nat
  manifestLog : List ManifestReq
  deriving DecidableEq, Repr

/-- `time.Now()`: the clock advances at every reading. -/
def World.tick (w : World) : Nat × World :=
  (w.now + 1, { w with now := w.now + 1 })

/-- Embedding of `Client.getToken`: one GET of the `realm` URL with `service`
and `scope` query parameters; non-200 yields a `registryError` carrying the
status and header, a malformed body a decode error, an absent or empty token
field `noToken`, otherwise the token is returned. -/
def getToken (endpoint service scope : List Char) (w : World) :
    Except GoError (List Char) × World :=
  let w2 := { w with tokenCalls := w.tokenCalls + 1,
                     tokenResps := w.tokenResps.tail }
  match w.tokenResps.head? with
  | none => (.error .netError, w2)
  | some none => (.error .netError, w2)
  | some (some r) =>
    if r.status ≠ 200 then (.error (.registryError r.status r.header), w2)
    else
      match r.body with
      | .error _ => (.error .decodeError, w2)
      | .ok t => if t = [] then (.error .noToken, w2) else (.ok t, w2)

/-- Body of `Client.refreshToken` after `lastUpdatedAt := time.Now()` has been
recorded: ensure the per-host record exists (under the map lock), then — under
the per-host lock — return the cached token when it was obtained after
`lastUpdatedAt`, otherwise fetch a new token and store it with a fresh
timestamp.  The per-host lock serializes these bodies across concurrent
callers. -/
def refreshTokenAt (c : ClientState) (host endpoint service scope : List Char)
    (lastUpdatedAt : Nat) (w : World) :
    Except GoError (List Char) × ClientState × World :=
  let host2 := toLower host
  let token :=
    match mapLookup c.tokens host2 with
    | some t => t
    | none => { token := [], updatedAt := 0 }
  let c2 :=
    match mapLookup c.tokens host2 with
    | some _ => c
    | none => { c with tokens := mapInsert c.tokens host2 token }
  if token.updatedAt > lastUpdatedAt then (.ok token.token, c2, w)
  else
    match getToken endpoint service scope w with
    | (.error e, w2) => (.error (.tokenFetchFailed e), c2, w2)
    | (.ok newToken, w2) =>
      let t := w2.tick
      let rec2 : RegistryToken := { token := newToken, updatedAt := t.1 }
      (.ok newToken, { c2 with tokens := mapInsert c2.tokens host2 rec2 }, t.2)

/-- Embedding of `Client.refreshToken`: record the request time, then run the
serialized body. -/
def refreshToken (c : ClientState) (host endpoint service scope : List Char)
    (w : World) : Except GoError (List Char) × ClientState × World :=
  let t := w.tick
  refreshTokenAt c host endpoint service scope t.1 t.2

/-- Serialized execution of several concurrent `refreshToken` calls for one
host: every caller recorded its `lastUpdatedAt` (the entries of the list)
before any of them acquired the per-host lock; the lock then runs the bodies
in sequence. -/
def refreshRace (host endpoint service scope : List Char) :
    List Nat → ClientState → World → ClientState × World
  | [], c, w => (c, w)
  | r :: rs, c, w =>
    let q := refreshTokenAt c host endpoint service scope r w
    refreshRace host endpoint service scope rs q.2.1 q.2.2

/-- Embedding of `Client.getCachedToken`: the cached token for the
lower-cased host, or the empty string. -/
def getCachedToken (c : ClientState) (host : List Char) : List Char :=
  match mapLookup c.tokens (toLower host) with
  | none => []
  | some t => t.token

/-- Embedding of `Client.Login`: store the credentials under the lower-cased
host; never fails. -/
def Login (c : ClientState) (host username password : List Char) :
    ClientState × Except GoError Unit :=
  let info : LoginInfo := { username := username, password := password }
  ({ c with loginInfo := mapInsert c.loginInfo (toLower host) info }, .ok ())

/-- Embedding of `Client.getManifests` (lower case): one GET of
`https://{host}/v2/{repo}/manifests/{tag}` with the cached token attached when
non-empty; non-200 yields a `registryError` carrying the status and header,
an undecodable 200 body a decode error. -/
def getManifests (c : ClientState) (host repo tag : List Char) (w : World) :
    Except GoError Manifests × World :=
  let req : ManifestReq :=
    { host := host, repo := repo, tag := tag, auth := getCachedToken c host }
  let w2 := { w with manifestLog := w.manifestLog ++ [req],
                     manifestResps := w.manifestResps.tail }
  match w.manifestResps.head? with
  | none => (.error .netError, w2)
  | some none => (.error .netError, w2)
  | some (some r) =>
    if r.status ≠ 200 then (.error (.registryError r.status r.header), w2)
    else
      match r.body with
      | none => (.error .decodeError, w2)
      | some m => (.ok m, w2)

/-- `errors.As(err, &repoErr)`: look for a `registryError`, unwrapping any
`%w` wrapping. -/
def asRegistryError : GoError → Option (Nat × List (List Char × List Char))
  | .registryError s h => some (s, h)
  | .tokenFetchFailed e => asRegistryError e
  | _ => none

/-- Embedding of `Client.GetManifests`: parse the image reference, attempt the
manifest GET; on a `registryError` with status 401 read `Www-Authenticate`,
and when it is non-empty parse it and refresh the token (failures of either
step are returned); finally re-issue the manifest GET once. -/
def GetManifests (c : ClientState) (image : List Char) (w : World) :
    Except GoError Manifests × ClientState × World :=
  let p := GetRepository image
  match getManifests c p.1 p.2.1 p.2.2 w with
  | (.ok m, w1) => (.ok m, c, w1)
  | (.error err, w1) =>
    match asRegistryError err with
    | none => (.error err, c, w1)
    | some se =>
      if se.1 ≠ 401 then (.error err, c, w1)
      else
        let h := assocGet se.2 "Www-Authenticate".data
        if h ≠ [] then
          match parseWWWAuthenticate h with
          | .error e => (.error e, c, w1)
          | .ok params =>
            match refreshToken c p.1 (assocGet params "realm".data)
                (assocGet params "service".data) (assocGet params "scope".data) w1 with
            | (.error e, c2, w2) => (.error e, c2, w2)
            | (.ok _, c2, w2) =>
              let r := getManifests c2 p.1 p.2.1 p.2.2 w2
              (r.1, c2, r.2)
        else
          let r := getManifests c p.1 p.2.1 p.2.2 w1
          (r.1, c, r.2)

/-- The token field a response body carries: empty when the body is malformed
or the field is missing or empty. -/
def tokenField : Except Unit (List Char) → List Char
  | .error _ => []
  | .ok t => t

/-- Observable content of one host's cache record: the token value and its
`updatedAt` timestamp, the zero record standing for an absent entry (Go's
`registryToken{}` zero value, indistinguishable through `getCachedToken`). -/
def cachedRecordView (c : ClientState) (host : List Char) : List Char × Nat :=
  match mapLookup c.tokens (toLower host) with
  | none => ([], 0)
  | some t => (t.token, t.updatedAt)

theorem splitFirst_of_not_mem {c : Char} {s : List Char} (h : c ∉ s) :
    splitFirst c s = none := by
  induction s with
  | nil => rfl
  | cons x xs ih =>
    simp only [List.mem_cons, not_or] at h
    simp [splitFirst, Ne.symm h.1, ih h.2]

theorem splitFirst_append {c : Char} {a b : List Char} (h : c ∉ a) :
    splitFirst c (a ++ c :: b) = some (a, b) := by
  induction a with
  | nil => simp [splitFirst]
  | cons x xs ih =>
    simp only [List.mem_cons, not_or] at h
    simp [splitFirst, Ne.symm h.1, ih h.2]

theorem splitFirst_none_iff {c : Char} {s : List Char} :
    splitFirst c s = none ↔ c ∉ s := by
  constructor
  · intro h hc
    induction s with
    | nil => simp at hc
    | cons x xs ih =>
      by_cases hx : x = c
      · simp [splitFirst, hx] at h
      · simp [splitFirst, hx] at h
        rcases List.mem_cons.mp hc with h1 | h2
        · exact hx h1.symm
        · exact ih h h2
  · exact splitFirst_of_not_mem

theorem length_dropWhile_le (p : Char → Bool) (l : List Char) :
    (l.dropWhile p).length ≤ l.length := by
  induction l with
  | nil => simp
  | cons x xs ih =>
    by_cases h : p x
    · rw [List.dropWhile_cons_of_pos h]
      exact Nat.le_succ_of_le ih
    · rw [List.dropWhile_cons_of_neg h]

theorem matchPair_length {s r : List Char} {kv : List Char × List Char}
    (h : matchPair s = some (kv, r)) : r.length < s.length := by
  unfold matchPair at h
  split at h
  · simp at h
  · rename_i hk
    split at h
    · rename_i rest heq
      split at h
      · rename_i rest2 heq2
        simp only [Option.some.injEq, Prod.mk.injEq] at h
        have hr : r = rest2 := h.2.symm
        have hs : (s.takeWhile isWordChar).length + (s.dropWhile isWordChar).length
            = s.length := by
          conv_rhs => rw [← List.takeWhile_append_dropWhile isWordChar s]
          exact (List.length_append _ _).symm
        have hk1 : 1 ≤ (s.takeWhile isWordChar).length := by
          cases hq : s.takeWhile isWordChar with
          | nil => exact absurd hq hk
          | cons y ys => simp
        have hd : (s.dropWhile isWordChar).length = rest.length + 2 := by
          rw [heq]; simp
        have hrest : rest2.length + 1 ≤ rest.length := by
          have := length_dropWhile_le (fun c => c ≠ '"') rest
          rw [heq2] at this
          simpa using this
        rw [hr]
        omega
      · simp at h
    · simp at h

theorem scanParamsFuel_nil (f : Nat) : scanParamsFuel f [] = [] := by
  cases f <;> rfl

/-- The fuel of `scanParamsFuel` is irrelevant once it reaches the length of
the scanned list, so `scanParams` computes the full left-to-right match
sequence. -/
theorem scanParamsFuel_congr : ∀ (n : Nat) (s : List Char), s.length ≤ n →
    ∀ f1 f2, s.length ≤ f1 → s.length ≤ f2 →
      scanParamsFuel f1 s = scanParamsFuel f2 s := by
  intro n
  induction n with
  | zero =>
    intro s hs f1 f2 h1 h2
    have : s = [] := List.length_eq_zero.mp (Nat.le_zero.mp hs)
    subst this
    rw [scanParamsFuel_nil, scanParamsFuel_nil]
  | succ n ih =>
    intro s hs f1 f2 h1 h2
    cases s with
    | nil => rw [scanParamsFuel_nil, scanParamsFuel_nil]
    | cons c rest =>
      simp only [List.length_cons] at hs h1 h2
      cases f1 with
      | zero => omega
      | succ a =>
        cases f2 with
        | zero => omega
        | succ b =>
          simp only [scanParamsFuel]
          cases hm : matchPair (c :: rest) with
          | some p =>
            obtain ⟨kv, r⟩ := p
            have hlt := matchPair_length hm
            simp only [List.length_cons] at hlt
            show kv :: scanParamsFuel a r = kv :: scanParamsFuel b r
            rw [ih r (by omega) a b (by omega) (by omega)]
          | none =>
            show scanParamsFuel a rest = scanParamsFuel b rest
            exact ih rest (by omega) a b (by omega) (by omega)

/-- Claim C1, counterexample. In `"myregistry.example.com:5000/app"` no `:`
occurs after the last `/`, so the claim predicts tag `"latest"`; the code
splits at the first `:` overall (the registry port) and yields `"5000/app"`. -/
theorem getRepository_port_colon_counterexample :
    "myregistry.example.com:5000/app".data =
      "myregistry.example.com:5000".data ++ '/' :: "app".data ∧
    '/' ∉ "app".data ∧ ':' ∉ "app".data ∧
    (GetRepository "myregistry.example.com:5000/app".data).2.2 = "5000/app".data ∧
    (GetRepository "myregistry.example.com:5000/app".data).2.2 ≠ "latest".data := by
  decide

/-- Claim C1, amended: `GetRepository` splits off the tag at the FIRST `:` in
the whole string (even one that precedes the last `/`, such as a registry
port), and the tag is `"latest"` exactly for strings containing no `:` at
all. -/
theorem getRepository_tag_first_colon (image a b : List Char) :
    (':' ∉ image → (GetRepository image).2.2 = "latest".data) ∧
    (image = a ++ ':' :: b → ':' ∉ a → (GetRepository image).2.2 = b) := by
  constructor
  · intro h
    simp only [GetRepository, splitFirst_of_not_mem h]
    cases hs : splitFirst '/' image with
    | none => simp
    | some q => simp only []; split <;> rfl
  · intro heq hn
    subst heq
    simp only [GetRepository, splitFirst_append hn]
    cases hs : splitFirst '/' a with
    | none => simp
    | some q => simp only []; split <;> rfl

/-- Claim C1, witness: concrete instance of the amended tag-splitting law. -/
theorem getRepository_tag_first_colon_witness :
    (GetRepository "debian:bullseye-slim".data).2.2 = "bullseye-slim".data :=
  (getRepository_tag_first_colon "debian:bullseye-slim".data "debian".data
      "bullseye-slim".data).2 (by decide) (by decide)

/-- Claim C3, counterexample. The first segment of `"localhost:5000/foo"`
contains a `:`, so the claim predicts host `"localhost:5000"` and repository
`"foo"`; the code never treats a `:` as a host marker (the tag split already
consumed everything from the first `:`) and yields the Docker Hub host with
repository `"library/localhost"`. -/
theorem getRepository_host_colon_counterexample :
    "localhost:5000/foo".data = "localhost:5000".data ++ '/' :: "foo".data ∧
    '/' ∉ "localhost:5000".data ∧ ':' ∈ "localhost:5000".data ∧
    (GetRepository "localhost:5000/foo".data).1 = dockerHubHost ∧
    (GetRepository "localhost:5000/foo".data).2.1 = "library/localhost".data ∧
    (GetRepository "localhost:5000/foo".data).1 ≠ "localhost:5000".data ∧
    (GetRepository "localhost:5000/foo".data).2.1 ≠ "foo".data := by
  decide

/-- Claim C3, amended: after the tag is split off at the first `:`, the host
is the Docker Hub host unless the segment before the first `/` of the
remaining name contains a `.` (then that segment is the host, the remainder
the repository); names with a `/` but no `.` in the first segment keep the
whole remaining name as repository on Docker Hub, and bare single-segment
names become `library/<name>` on Docker Hub.  A `:` in the first segment
never selects a host. -/
theorem getRepository_host_detection (image img a b : List Char)
    (hstrip : splitFirst ':' image = none ∧ img = image ∨
              ∃ t, splitFirst ':' image = some (img, t)) :
    ((img = a ++ '/' :: b ∧ '/' ∉ a ∧ '.' ∈ a) →
        (GetRepository image).1 = a ∧ (GetRepository image).2.1 = b) ∧
    ((img = a ++ '/' :: b ∧ '/' ∉ a ∧ '.' ∉ a) →
        (GetRepository image).1 = dockerHubHost ∧ (GetRepository image).2.1 = img) ∧
    ('/' ∉ img →
        (GetRepository image).1 = dockerHubHost ∧
        (GetRepository image).2.1 = "library/".data ++ img) := by
  obtain ⟨tg, hp⟩ : ∃ tg, (match splitFirst ':' image with
      | some q => q
      | none => (image, ("latest".data : List Char))) = (img, tg) := by
    rcases hstrip with ⟨h1, h2⟩ | ⟨t, h⟩
    · exact ⟨"latest".data, by rw [h1, h2]⟩
    · exact ⟨t, by rw [h]⟩
  refine ⟨?_, ?_, ?_⟩
  · rintro ⟨heq, hna, hd⟩
    have hc : a.contains '.' = true := by simpa using hd
    simp only [GetRepository, hp, heq, splitFirst_append hna, hc]
    exact ⟨rfl, rfl⟩
  · rintro ⟨heq, hna, hd⟩
    have hc : a.contains '.' = false := by simpa using hd
    simp only [GetRepository, hp, heq, splitFirst_append hna, hc]
    simp
  · intro hn
    simp [GetRepository, hp, splitFirst_of_not_mem hn]

/-- Claim C3, witness: concrete instances of all three host-detection cases. -/
theorem getRepository_host_detection_witness :
    ((GetRepository "ghcr.io/github/super-linter:v3".data).1 = "ghcr.io".data ∧
     (GetRepository "ghcr.io/github/super-linter:v3".data).2.1 = "github/super-linter".data) ∧
    ((GetRepository "katsubushi/katsubushi:v1.6.0".data).1 = dockerHubHost ∧
     (GetRepository "katsubushi/katsubushi:v1.6.0".data).2.1 = "katsubushi/katsubushi".data) ∧
    ((GetRepository "alpine".data).1 = dockerHubHost ∧
     (GetRepository "alpine".data).2.1 = "library/".data ++ "alpine".data) :=
  ⟨(getRepository_host_detection "ghcr.io/github/super-linter:v3".data
      "ghcr.io/github/super-linter".data "ghcr.io".data "github/super-linter".data
      (Or.inr ⟨"v3".data, by decide⟩)).1 ⟨by decide, by decide, by decide⟩,
   (getRepository_host_detection "katsubushi/katsubushi:v1.6.0".data
      "katsubushi/katsubushi".data "katsubushi".data "katsubushi".data
      (Or.inr ⟨"v1.6.0".data, by decide⟩)).2.1 ⟨by decide, by decide, by decide⟩,
   (getRepository_host_detection "alpine".data "alpine".data [] []
      (Or.inl ⟨by decide, rfl⟩)).2.2 (by decide)⟩

/-- Claim C6: the challenge parser fails with the unsupported-scheme error
exactly when the token before the first space is not `"Bearer"`, fails with
the malformed error exactly when the value contains no space at all, and
succeeds in every other case. -/
theorem parseWWWAuthenticate_scheme_errors (value a b : List Char) :
    (' ' ∉ value ↔ parseWWWAuthenticate value = .error .authTypeNotFound) ∧
    (value = a ++ ' ' :: b → ' ' ∉ a →
      ((parseWWWAuthenticate value = .error (.unknownAuthType a)) ↔
          a ≠ "Bearer".data) ∧
      (a = "Bearer".data → ∃ m, parseWWWAuthenticate value = .ok m)) := by
  constructor
  · constructor
    · intro h
      simp [parseWWWAuthenticate, splitFirst_of_not_mem h]
    · intro h
      cases hq : splitFirst ' ' value with
      | none => exact splitFirst_none_iff.mp hq
      | some q =>
        rw [parseWWWAuthenticate, hq] at h
        by_cases hb : q.1 = "Bearer".data <;> simp [hb] at h
  · intro heq hn
    subst heq
    constructor
    · rw [parseWWWAuthenticate, splitFirst_append hn]
      by_cases hb : a = "Bearer".data <;> simp [hb]
    · intro hb
      subst hb
      rw [parseWWWAuthenticate, splitFirst_append hn]
      simp

/-- Claim C6, witness: a `Basic` challenge is an unsupported-scheme error, a
`Bearer` challenge parses. -/
theorem parseWWWAuthenticate_scheme_errors_witness :
    parseWWWAuthenticate ("Basic realm=\"r\"").data =
      .error (.unknownAuthType "Basic".data) ∧
    ∃ m, parseWWWAuthenticate ("Bearer realm=\"r\"").data = .ok m :=
  ⟨((parseWWWAuthenticate_scheme_errors ("Basic realm=\"r\"").data "Basic".data
      ("realm=\"r\"").data).2 (by decide) (by decide)).1.mpr (by decide),
   ((parseWWWAuthenticate_scheme_errors ("Bearer realm=\"r\"").data "Bearer".data
      ("realm=\"r\"").data).2 (by decide) (by decide)).2 (by decide)⟩

/-- Claim C7: the reference Bearer challenge parses into exactly the three
`realm`/`service`/`scope` bindings with their exact values (assignment order
makes `scope` the most recent binding), and text not matching
`key="value"` is ignored while the matches around it are still collected. -/
theorem parseWWWAuthenticate_params_example :
    parseWWWAuthenticate ("Bearer realm=\"https://auth.example/token\",service=\"registry.example\",scope=\"repository:x:pull\"").data =
      .ok [("scope".data, "repository:x:pull".data),
           ("service".data, "registry.example".data),
           ("realm".data, "https://auth.example/token".data)] ∧
    assocGet [("scope".data, "repository:x:pull".data),
           ("service".data, "registry.example".data),
           ("realm".data, "https://auth.example/token".data)] "realm".data =
      "https://auth.example/token".data ∧
    assocGet [("scope".data, "repository:x:pull".data),
           ("service".data, "registry.example".data),
           ("realm".data, "https://auth.example/token".data)] "service".data =
      "registry.example".data ∧
    assocGet [("scope".data, "repository:x:pull".data),
           ("service".data, "registry.example".data),
           ("realm".data, "https://auth.example/token".data)] "scope".data =
      "repository:x:pull".data ∧
    parseWWWAuthenticate ("Bearer foo bar, realm=\"r\", +++=\"zz\"").data =
      .ok [("realm".data, "r".data)] := by
  decide

theorem toNat_ofNat_valid {n : Nat} (h : n.isValidChar) : (Char.ofNat n).toNat = n := by
  simp [Char.ofNat, h, Char.ofNatAux, Char.toNat, UInt32.toNat, BitVec.toNat_ofNatLt]

theorem toLowerChar_idem (c : Char) : toLowerChar (toLowerChar c) = toLowerChar c := by
  unfold toLowerChar
  by_cases h : 65 ≤ c.toNat ∧ c.toNat ≤ 90
  · rw [if_pos h]
    have hv : (Char.ofNat (c.toNat + 32)).toNat = c.toNat + 32 :=
      toNat_ofNat_valid (Or.inl (by omega))
    rw [if_neg]
    rw [hv]
    omega
  · rw [if_neg h, if_neg h]

theorem toLower_idem (s : List Char) : toLower (toLower s) = toLower s := by
  unfold toLower
  rw [List.map_map]
  exact List.map_congr_left (fun c _ => toLowerChar_idem c)

theorem mapLookup_insert {α : Type} (m : List (List Char × α)) (k q : List Char) (v : α) :
    mapLookup (mapInsert m k v) q = if k = q then some v else mapLookup m q := by
  simp [mapInsert, mapLookup]

theorem getToken_world (endpoint service scope : List Char) (w : World) :
    (getToken endpoint service scope w).2 =
      { w with tokenCalls := w.tokenCalls + 1,
               tokenResps := w.tokenResps.tail } := by
  rw [getToken]
  cases h : w.tokenResps.head? with
  | none => rfl
  | some o =>
    cases o with
    | none => rfl
    | some r =>
      simp only []
      split
      · rfl
      · cases hb : r.body with
        | error u => rfl
        | ok t =>
          simp only []
          split <;> rfl

theorem refreshTokenAt_tokenCalls_le (c : ClientState)
    (host endpoint service scope : List Char) (lastUpdatedAt : Nat) (w : World) :
    (refreshTokenAt c host endpoint service scope lastUpdatedAt w).2.2.tokenCalls
      ≤ w.tokenCalls + 1 := by
  rw [refreshTokenAt]
  simp only []
  split
  · simp
  · rcases hg : getToken endpoint service scope w with ⟨res, w2⟩
    have hw2 := getToken_world endpoint service scope w
    rw [hg] at hw2
    simp only [] at hw2
    cases res with
    | error e => simp [hg, hw2]
    | ok t => simp [hg, World.tick, hw2]

theorem getToken_fst (endpoint service scope : List Char) (w : World)
    (r : TokenResp) (rest : List (Option TokenResp))
    (h : w.tokenResps = some r :: rest) :
    (getToken endpoint service scope w).1 =
      (if r.status ≠ 200 then .error (.registryError r.status r.header)
       else match r.body with
         | .error _ => .error .decodeError
         | .ok t => if t = [] then .error .noToken else .ok t) := by
  rw [getToken, h]
  simp only [List.head?]
  by_cases hs : r.status ≠ 200
  · simp [hs]
  · simp only [hs, if_false]
    cases hb : r.body with
    | error u => simp
    | ok t =>
      simp only []
      split <;> simp_all

theorem refreshTokenAt_cached {c : ClientState} {host : List Char}
    (endpoint service scope : List Char) {tok : RegistryToken}
    {lastUpdatedAt : Nat} {w : World}
    (hl : mapLookup c.tokens (toLower host) = some tok)
    (hgt : tok.updatedAt > lastUpdatedAt) :
    refreshTokenAt c host endpoint service scope lastUpdatedAt w
      = (.ok tok.token, c, w) := by
  rw [refreshTokenAt]
  simp [hl, hgt]

theorem refreshRace_cached (host endpoint service scope : List Char)
    (tok : RegistryToken) :
    ∀ (rs : List Nat) (c : ClientState) (w : World),
      mapLookup c.tokens (toLower host) = some tok →
      (∀ x ∈ rs, x < tok.updatedAt) →
      refreshRace host endpoint service scope rs c w = (c, w) := by
  intro rs
  induction rs with
  | nil => intro c w _ _; rfl
  | cons r rs2 ih =>
    intro c w hlook hall
    rw [refreshRace]
    have hq : refreshTokenAt c host endpoint service scope r w = (.ok tok.token, c, w) :=
      refreshTokenAt_cached endpoint service scope hlook (hall r (by simp))
    simp only [hq]
    exact ih c w hlook (fun x hx => hall x (by simp [hx]))

/-- Claim C4: when the cached record's `updatedAt` is after the request time
that `refreshToken` recorded before taking the per-host lock, the cached token
is returned and neither the state nor the world changes (no network call);
consequently a serialized race of concurrent refreshes for one uncached host,
all of which recorded their request times before the first fetch completed,
makes exactly one token-endpoint call (and consumes exactly one token
response). -/
theorem refreshToken_single_flight (c : ClientState)
    (host endpoint service scope : List Char) (w : World)
    (tok : RegistryToken) (tr : TokenResp) (t : List Char)
    (rest : List (Option TokenResp)) :
    (∀ requestedAt, mapLookup c.tokens (toLower host) = some tok →
        tok.updatedAt > requestedAt →
        refreshTokenAt c host endpoint service scope requestedAt w
          = (.ok tok.token, c, w)) ∧
    (∀ rs : List Nat,
        mapLookup c.tokens (toLower host) = none →
        (∀ x ∈ rs, x ≤ w.now) →
        rs ≠ [] →
        w.tokenResps = some tr :: rest →
        tr.status = 200 → tr.body = .ok t → t ≠ [] →
        (refreshRace host endpoint service scope rs c w).2.tokenCalls
          = w.tokenCalls + 1 ∧
        (refreshRace host endpoint service scope rs c w).2.tokenResps = rest) := by
  constructor
  · intro requestedAt hl hgt
    exact refreshTokenAt_cached endpoint service scope hl hgt
  · intro rs hl hall hne hresps hs hb ht
    cases rs with
    | nil => exact absurd rfl hne
    | cons r rs2 =>
      have hg : getToken endpoint service scope w =
          (.ok t, ⟨w.now, rest, w.manifestResps, w.tokenCalls + 1, w.manifestLog⟩) := by
        rw [getToken, hresps]
        simp [hs, hb, ht]
      have hstep : refreshTokenAt c host endpoint service scope r w =
          (.ok t, ⟨mapInsert (mapInsert c.tokens (toLower host) ⟨[], 0⟩) (toLower host) ⟨t, w.now + 1⟩, c.loginInfo⟩, ⟨w.now + 1, rest, w.manifestResps, w.tokenCalls + 1, w.manifestLog⟩) := by
        rw [refreshTokenAt]
        simp only [hl, hg]
        simp [World.tick, mapInsert]
      have hlook2 : mapLookup (mapInsert (mapInsert c.tokens (toLower host) ⟨[], 0⟩) (toLower host) ⟨t, w.now + 1⟩) (toLower host) = some ⟨t, w.now + 1⟩ := by
        rw [mapLookup_insert]
        simp
      have hall2 : ∀ x ∈ rs2, x < w.now + 1 := by
        intro x hx
        have hx2 := hall x (by simp [hx])
        omega
      rw [refreshRace]
      simp only [hstep]
      rw [refreshRace_cached host endpoint service scope ⟨t, w.now + 1⟩ rs2 _ _ hlook2 hall2]
      exact ⟨rfl, rfl⟩

/-- Claim C4, witness: a cached record obtained at time 5 short-circuits a
request recorded at time 3, and a race of two concurrent refreshes for an
uncached host (request times 1 and 2, clock at 2) makes one token call. -/
theorem refreshToken_single_flight_witness :
    refreshTokenAt ⟨[("h".data, ⟨"tk".data, 5⟩)], []⟩ "h".data [] [] [] 3
        ⟨0, [], [], 0, []⟩
      = (.ok "tk".data, ⟨[("h".data, ⟨"tk".data, 5⟩)], []⟩, ⟨0, [], [], 0, []⟩) ∧
    (refreshRace "h".data [] [] [] [1, 2] ⟨[], []⟩
        ⟨2, [some ⟨200, [], .ok "tk".data⟩], [], 0, []⟩).2.tokenCalls = 0 + 1 :=
  ⟨(refreshToken_single_flight ⟨[("h".data, ⟨"tk".data, 5⟩)], []⟩ "h".data [] [] []
      ⟨0, [], [], 0, []⟩ ⟨"tk".data, 5⟩ ⟨200, [], .ok "tk".data⟩ "tk".data []).1 3
      (by decide) (by decide),
   ((refreshToken_single_flight ⟨[], []⟩ "h".data [] [] []
      ⟨2, [some ⟨200, [], .ok "tk".data⟩], [], 0, []⟩ ⟨[], 0⟩
      ⟨200, [], .ok "tk".data⟩ "tk".data []).2 [1, 2]
      (by decide) (by decide) (by decide) rfl rfl rfl (by decide)).1⟩

/-- Claim C8: with a token-endpoint response at hand, `getToken` fails exactly
when the status is not 200 or the body's token field is absent or empty, and
on a 200 response with a non-empty token field it returns that token; one
`refreshToken` never makes more than one token-endpoint call, so a failed
fetch is not retried inside the token cache. -/
theorem getToken_failure_exact (endpoint service scope : List Char) (w : World)
    (r : TokenResp) (rest : List (Option TokenResp))
    (h : w.tokenResps = some r :: rest) :
    ((∃ e, (getToken endpoint service scope w).1 = .error e) ↔
        (r.status ≠ 200 ∨ tokenField r.body = [])) ∧
    (r.status = 200 → tokenField r.body ≠ [] →
        (getToken endpoint service scope w).1 = .ok (tokenField r.body)) ∧
    (∀ c host, (refreshToken c host endpoint service scope w).2.2.tokenCalls
        ≤ w.tokenCalls + 1) := by
  have hthird : ∀ c host,
      (refreshToken c host endpoint service scope w).2.2.tokenCalls
        ≤ w.tokenCalls + 1 := by
    intro c host
    rw [refreshToken]
    exact refreshTokenAt_tokenCalls_le c host endpoint service scope _ _
  have hk := getToken_fst endpoint service scope w r rest h
  refine ⟨?_, ?_, hthird⟩
  · by_cases hs : r.status = 200
    · cases hb : r.body with
      | error u =>
        constructor
        · intro _
          right
          simp [tokenField, hb]
        · intro _
          exact ⟨.decodeError, by simp [hk, hs, hb]⟩
      | ok t =>
        by_cases ht : t = []
        · constructor
          · intro _
            right
            simp [tokenField, hb, ht]
          · intro _
            exact ⟨.noToken, by simp [hk, hs, hb, ht]⟩
        · constructor
          · rintro ⟨e, he⟩
            rw [hk] at he
            simp [hs, hb, ht] at he
          · rintro (h1 | h2)
            · exact absurd hs h1
            · simp [tokenField, hb] at h2
              exact absurd h2 ht
    · constructor
      · intro _
        left
        exact hs
      · intro _
        exact ⟨.registryError r.status r.header, by simp [hk, hs]⟩
  · intro hs hne
    rw [hk]
    cases hb : r.body with
    | error u =>
      simp [tokenField, hb] at hne
    | ok t =>
      simp only [tokenField, hb]
      simp [hs, hb]
      intro hteq
      simp [tokenField, hb, hteq] at hne

/-- Claim C8, witness: a 500 response makes the fetch fail. -/
theorem getToken_failure_exact_witness :
    ∃ e, (getToken [] [] []
        ⟨0, [some ⟨500, [], .ok "x".data⟩], [], 0, []⟩).1 = .error e :=
  (getToken_failure_exact [] [] [] ⟨0, [some ⟨500, [], .ok "x".data⟩], [], 0, []⟩
      ⟨500, [], .ok "x".data⟩ [] rfl).1.mpr (Or.inl (by decide))

/-- Claim C9: a failed `refreshToken` (any cause, including a cancelled token
fetch) leaves every host's observable cache record — the token value returned
by `getCachedToken` and the (value, `updatedAt`) view — exactly as it was. -/
theorem refreshToken_failure_preserves_cache (c : ClientState)
    (host endpoint service scope : List Char) (w : World) (e : GoError)
    (h : (refreshToken c host endpoint service scope w).1 = .error e) :
    (∀ x, getCachedToken (refreshToken c host endpoint service scope w).2.1 x
        = getCachedToken c x) ∧
    (∀ x, cachedRecordView (refreshToken c host endpoint service scope w).2.1 x
        = cachedRecordView c x) := by
  rw [refreshToken] at h ⊢
  cases hl : mapLookup c.tokens (toLower host) with
  | some tok =>
    by_cases hgt : tok.updatedAt > (World.tick w).1
    · rw [refreshTokenAt] at h
      simp [hl, hgt] at h
    · rcases hg : getToken endpoint service scope (World.tick w).2 with ⟨res, w2⟩
      cases res with
      | ok t =>
        rw [refreshTokenAt] at h
        simp [hl, hgt, hg] at h
      | error e2 =>
        constructor <;> intro x <;> rw [refreshTokenAt] <;> simp [hl, hgt, hg]
  | none =>
    have hgt : ¬ ((0 : Nat) > (World.tick w).1) := by omega
    rcases hg : getToken endpoint service scope (World.tick w).2 with ⟨res, w2⟩
    cases res with
    | ok t =>
      rw [refreshTokenAt] at h
      simp [hl, hg] at h
    | error e2 =>
      constructor <;> intro x
      · rw [refreshTokenAt]
        simp only [hl, hg]
        rw [getCachedToken, getCachedToken]
        simp only [mapInsert, mapLookup]
        by_cases hx : toLower host = toLower x
        · simp only [hx, if_pos rfl]
          rw [← hx, hl]
          simp
        · simp [hx]
      · rw [refreshTokenAt]
        simp only [hl, hg]
        rw [cachedRecordView, cachedRecordView]
        simp only [mapInsert, mapLookup]
        by_cases hx : toLower host = toLower x
        · simp only [hx, if_pos rfl]
          rw [← hx, hl]
          simp
        · simp [hx]

/-- Claim C9, witness: a refresh that fails on a transport error (no response
available, as for a cancelled request) leaves the cache observably unchanged. -/
theorem refreshToken_failure_preserves_cache_witness :
    getCachedToken (refreshToken ⟨[], []⟩ "h".data [] [] []
        ⟨0, [], [], 0, []⟩).2.1 "h".data
      = getCachedToken ⟨[], []⟩ "h".data :=
  (refreshToken_failure_preserves_cache ⟨[], []⟩ "h".data [] [] []
      ⟨0, [], [], 0, []⟩ (.tokenFetchFailed .netError) (by decide)).1 "h".data

/-- Claim C10: `Login`, `refreshToken` and `getCachedToken` lower-case the
host before use, so each behaves identically on a host and on its lower-cased
form, while `GetRepository` returns the host with its original casing. -/
theorem tokenCache_host_case_insensitive (c : ClientState)
    (host username password endpoint service scope : List Char) (w : World) :
    Login c host username password = Login c (toLower host) username password ∧
    refreshToken c host endpoint service scope w
      = refreshToken c (toLower host) endpoint service scope w ∧
    getCachedToken c host = getCachedToken c (toLower host) ∧
    (GetRepository "Ghcr.IO/foo:v1".data).1 = "Ghcr.IO".data := by
  refine ⟨?_, ?_, ?_, by decide⟩
  · simp only [Login, toLower_idem]
  · simp only [refreshToken, refreshTokenAt, toLower_idem]
  · simp only [getCachedToken, toLower_idem]

theorem getManifests_world (c : ClientState) (host repo tag : List Char) (w : World) :
    (getManifests c host repo tag w).2 =
      { w with manifestLog := w.manifestLog ++
                 [⟨host, repo, tag, getCachedToken c host⟩],
               manifestResps := w.manifestResps.tail } := by
  rw [getManifests]
  cases h : w.manifestResps.head? with
  | none => rfl
  | some o =>
    cases o with
    | none => rfl
    | some r =>
      simp only []
      split
      · rfl
      · cases hb : r.body with
        | none => rfl
        | some m => rfl

theorem getManifests_fst (c : ClientState) (host repo tag : List Char) (w : World)
    (r : ManifestResp) (rest : List (Option ManifestResp))
    (h : w.manifestResps = some r :: rest) :
    (getManifests c host repo tag w).1 =
      (if r.status ≠ 200 then .error (.registryError r.status r.header)
       else match r.body with
         | none => .error .decodeError
         | some m => .ok m) := by
  rw [getManifests, h]
  simp only [List.head?]
  by_cases hs : r.status ≠ 200
  · simp [hs]
  · simp only [hs, if_false]
    cases hb : r.body with
    | none => simp
    | some m => simp_all

theorem refreshToken_manifest_frame (c : ClientState)
    (host endpoint service scope : List Char) (w : World) :
    (refreshToken c host endpoint service scope w).2.2.manifestLog = w.manifestLog ∧
    (refreshToken c host endpoint service scope w).2.2.manifestResps
      = w.manifestResps := by
  rw [refreshToken, refreshTokenAt]
  simp only []
  split
  · simp [World.tick]
  · rcases hg : getToken endpoint service scope (World.tick w).2 with ⟨res, w2⟩
    have hw2 := getToken_world endpoint service scope (World.tick w).2
    rw [hg] at hw2
    simp only [] at hw2
    cases res with
    | error e => simp [hg, hw2, World.tick]
    | ok t => simp [hg, hw2, World.tick]

/-- The manifest-request log a `GetManifests` run appends: either one request
or two, all of them for the URL components parsed from the image reference. -/
theorem GetManifests_logShape (c : ClientState) (image : List Char) (w : World) :
    (GetManifests c image w).2.2.manifestLog
        = w.manifestLog ++ [⟨(GetRepository image).1, (GetRepository image).2.1,
            (GetRepository image).2.2, getCachedToken c (GetRepository image).1⟩] ∨
    ∃ a, (GetManifests c image w).2.2.manifestLog
        = w.manifestLog ++ [⟨(GetRepository image).1, (GetRepository image).2.1,
            (GetRepository image).2.2, getCachedToken c (GetRepository image).1⟩,
            ⟨(GetRepository image).1, (GetRepository image).2.1,
            (GetRepository image).2.2, a⟩] := by
  rw [GetManifests]
  simp only []
  rcases hm1 : getManifests c (GetRepository image).1 (GetRepository image).2.1
      (GetRepository image).2.2 w with ⟨res1, w1⟩
  have hw1 := getManifests_world c (GetRepository image).1 (GetRepository image).2.1
      (GetRepository image).2.2 w
  rw [hm1] at hw1
  simp only [] at hw1
  subst hw1
  cases res1 with
  | ok m =>
    left
    simp
  | error err =>
    cases herr : asRegistryError err with
    | none =>
      left
      simp [herr]
    | some se =>
      by_cases h401 : se.1 = 401
      · simp only [herr, h401, ne_eq, not_true_eq_false, if_false, ite_false]
        by_cases hh : assocGet se.2 "Www-Authenticate".data = []
        · simp only [hh, ne_eq, not_true_eq_false, ite_false]
          right
          refine ⟨getCachedToken c (GetRepository image).1, ?_⟩
          have hw2 := getManifests_world c (GetRepository image).1
              (GetRepository image).2.1 (GetRepository image).2.2
              { w with manifestResps := w.manifestResps.tail,
                       manifestLog := w.manifestLog ++
                         [⟨(GetRepository image).1, (GetRepository image).2.1,
                           (GetRepository image).2.2,
                           getCachedToken c (GetRepository image).1⟩] }
          simp [hw2]
        · simp only [hh, ne_eq, not_false_eq_true, if_true, ite_true]
          cases hp : parseWWWAuthenticate (assocGet se.2 "Www-Authenticate".data) with
          | error e =>
            left
            simp
          | ok params =>
            rcases hr : refreshToken c (GetRepository image).1
                (assocGet params "realm".data) (assocGet params "service".data)
                (assocGet params "scope".data)
                { w with manifestResps := w.manifestResps.tail,
                         manifestLog := w.manifestLog ++
                           [⟨(GetRepository image).1, (GetRepository image).2.1,
                             (GetRepository image).2.2,
                             getCachedToken c (GetRepository image).1⟩] }
                with ⟨res2, c2, w2⟩
            have hfr := refreshToken_manifest_frame c (GetRepository image).1
                (assocGet params "realm".data) (assocGet params "service".data)
                (assocGet params "scope".data)
                { w with manifestResps := w.manifestResps.tail,
                         manifestLog := w.manifestLog ++
                           [⟨(GetRepository image).1, (GetRepository image).2.1,
                             (GetRepository image).2.2,
                             getCachedToken c (GetRepository image).1⟩] }
            rw [hr] at hfr
            simp only [] at hfr
            cases res2 with
            | error e =>
              left
              simp [hr, hfr.1]
            | ok t =>
              right
              refine ⟨getCachedToken c2 (GetRepository image).1, ?_⟩
              have hw3 := getManifests_world c2 (GetRepository image).1
                  (GetRepository image).2.1 (GetRepository image).2.2 w2
              simp [hr, hw3, hfr.1]
      · left
        simp [herr, h401]

/-- Claim C2: a first response with a status other than 200 and 401 is
terminal — the `registryError` carrying that status and header is returned
after exactly one manifest request; every execution issues at most two
manifest requests (so a failing second attempt is terminal), and every issued
request addresses the URL parsed from the image reference. -/
theorem GetManifests_two_attempts (c : ClientState) (image : List Char) (w : World) :
    (GetManifests c image w).2.2.manifestLog.length ≤ w.manifestLog.length + 2 ∧
    (∀ r rest, w.manifestResps = some r :: rest → r.status ≠ 200 → r.status ≠ 401 →
      (GetManifests c image w).1 = .error (.registryError r.status r.header) ∧
      (GetManifests c image w).2.2.manifestLog.length = w.manifestLog.length + 1) ∧
    (∀ q ∈ (GetManifests c image w).2.2.manifestLog.drop w.manifestLog.length,
      q.host = (GetRepository image).1 ∧ q.repo = (GetRepository image).2.1 ∧
      q.tag = (GetRepository image).2.2) := by
  refine ⟨?_, ?_, ?_⟩
  · rcases GetManifests_logShape c image w with h | ⟨a, h⟩ <;> simp [h]
  · intro r rest hresp hs200 hs401
    have hfst := getManifests_fst c (GetRepository image).1 (GetRepository image).2.1
        (GetRepository image).2.2 w r rest hresp
    rw [if_pos hs200] at hfst
    rw [GetManifests]
    simp only []
    rcases hm1 : getManifests c (GetRepository image).1 (GetRepository image).2.1
        (GetRepository image).2.2 w with ⟨res1, w1⟩
    have hw1 := getManifests_world c (GetRepository image).1 (GetRepository image).2.1
        (GetRepository image).2.2 w
    rw [hm1] at hw1
    simp only [] at hw1
    subst hw1
    rw [hm1] at hfst
    simp only [] at hfst
    subst hfst
    simp [asRegistryError, hs401]
  · intro q hq
    rcases GetManifests_logShape c image w with h | ⟨a, h⟩ <;> rw [h] at hq <;>
      rw [List.drop_left] at hq <;> simp only [List.mem_cons, List.mem_singleton] at hq
    · rcases hq with hq | hq
      · subst hq
        exact ⟨rfl, rfl, rfl⟩
      · simp at hq
    · rcases hq with hq | hq | hq
      · subst hq
        exact ⟨rfl, rfl, rfl⟩
      · subst hq
        exact ⟨rfl, rfl, rfl⟩
      · simp at hq

/-- Claim C5, counterexample.  A first response of 401 without a
`Www-Authenticate` header does not end the run after one request: the code
skips the token refresh but still re-issues the manifest request, so two
requests are logged where the claim predicts one. -/
theorem getManifests_bare401_counterexample :
    (GetManifests ⟨[], []⟩ "debian".data
        ⟨0, [], [some ⟨401, [], none⟩, some ⟨401, [], none⟩], 0, []⟩).2.2.manifestLog.length = 2 ∧
    (GetManifests ⟨[], []⟩ "debian".data
        ⟨0, [], [some ⟨401, [], none⟩, some ⟨401, [], none⟩], 0, []⟩).2.2.tokenCalls = 0 ∧
    assocGet ([] : List (List Char × List Char)) "Www-Authenticate".data = [] ∧
    (GetManifests ⟨[], []⟩ "debian".data
        ⟨0, [], [some ⟨401, [], none⟩, some ⟨401, [], none⟩], 0, []⟩).2.2.manifestLog.length ≠ 1 := by
  decide

/-- The value a `getManifests` call returns depends only on the pending
manifest responses, not on the clock, counters or logs of the world. -/
theorem getManifests_fst_resps (c : ClientState) (host repo tag : List Char)
    (w w' : World) (h : w.manifestResps = w'.manifestResps) :
    (getManifests c host repo tag w).1 = (getManifests c host repo tag w').1 := by
  rw [getManifests, getManifests, h]
  cases hh : w'.manifestResps.head? with
  | none => rfl
  | some o =>
    cases o with
    | none => rfl
    | some r =>
      simp only []
      split
      · rfl
      · cases r.body <;> rfl

/-- Claim C5, amended: when the first response is 401 and carries no
`Www-Authenticate` header, `GetManifests` refreshes no token (the client
state and the token-call counter are untouched) but re-issues the manifest
request once and returns that second attempt's outcome — the result of one
manifest GET against the remaining pending responses. -/
theorem GetManifests_bare401_retry (c : ClientState) (image : List Char) (w : World)
    (r : ManifestResp) (rest : List (Option ManifestResp))
    (h1 : w.manifestResps = some r :: rest) (h2 : r.status = 401)
    (h3 : assocGet r.header "Www-Authenticate".data = []) :
    (GetManifests c image w).2.1 = c ∧
    (GetManifests c image w).2.2.tokenCalls = w.tokenCalls ∧
    (GetManifests c image w).2.2.manifestLog.length = w.manifestLog.length + 2 ∧
    (GetManifests c image w).1
      = (getManifests c (GetRepository image).1 (GetRepository image).2.1
          (GetRepository image).2.2
          { w with manifestResps := w.manifestResps.tail }).1 := by
  have h200 : r.status ≠ 200 := by rw [h2]; decide
  have hfst := getManifests_fst c (GetRepository image).1 (GetRepository image).2.1
      (GetRepository image).2.2 w r rest h1
  rw [if_pos h200] at hfst
  rw [GetManifests]
  simp only []
  rcases hm1 : getManifests c (GetRepository image).1 (GetRepository image).2.1
      (GetRepository image).2.2 w with ⟨res1, w1⟩
  have hw1 := getManifests_world c (GetRepository image).1 (GetRepository image).2.1
      (GetRepository image).2.2 w
  rw [hm1] at hw1
  simp only [] at hw1
  subst hw1
  rw [hm1] at hfst
  simp only [] at hfst
  subst hfst
  have hw2 := getManifests_world c (GetRepository image).1 (GetRepository image).2.1
      (GetRepository image).2.2
      { w with manifestResps := w.manifestResps.tail,
               manifestLog := w.manifestLog ++
                 [⟨(GetRepository image).1, (GetRepository image).2.1,
                   (GetRepository image).2.2,
                   getCachedToken c (GetRepository image).1⟩] }
  have hsnd := getManifests_fst_resps c (GetRepository image).1 (GetRepository image).2.1
      (GetRepository image).2.2
      { w with manifestResps := w.manifestResps.tail,
               manifestLog := w.manifestLog ++
                 [⟨(GetRepository image).1, (GetRepository image).2.1,
                   (GetRepository image).2.2,
                   getCachedToken c (GetRepository image).1⟩] }
      { w with manifestResps := w.manifestResps.tail }
      rfl
  simp [asRegistryError, h2, h3, hw2, hsnd]

/-- Claim C2, witness: a 404 response is surfaced as a `registryError` after
a single manifest request. -/
theorem GetManifests_two_attempts_witness :
    (GetManifests ⟨[], []⟩ "debian".data
        ⟨0, [], [some ⟨404, [("a".data, "b".data)], none⟩], 0, []⟩).1
      = .error (.registryError 404 [("a".data, "b".data)]) ∧
    (GetManifests ⟨[], []⟩ "debian".data
        ⟨0, [], [some ⟨404, [("a".data, "b".data)], none⟩], 0, []⟩).2.2.manifestLog.length
      = 0 + 1 :=
  (GetManifests_two_attempts ⟨[], []⟩ "debian".data
      ⟨0, [], [some ⟨404, [("a".data, "b".data)], none⟩], 0, []⟩).2.1
    ⟨404, [("a".data, "b".data)], none⟩ [] rfl (by decide) (by decide)

/-- Claim C5, witness: two bare 401 responses produce two manifest requests,
no token call, an unchanged client, and the returned value is the outcome of
the second attempt against the remaining response — here the second 401. -/
theorem GetManifests_bare401_retry_witness :
    ((GetManifests ⟨[], []⟩ "debian".data
        ⟨0, [], [some ⟨401, [], none⟩, some ⟨401, [], none⟩], 0, []⟩).2.1 = ⟨[], []⟩ ∧
     (GetManifests ⟨[], []⟩ "debian".data
        ⟨0, [], [some ⟨401, [], none⟩, some ⟨401, [], none⟩], 0, []⟩).2.2.tokenCalls = 0 ∧
     (GetManifests ⟨[], []⟩ "debian".data
        ⟨0, [], [some ⟨401, [], none⟩, some ⟨401, [], none⟩], 0, []⟩).2.2.manifestLog.length
      = 0 + 2 ∧
     (GetManifests ⟨[], []⟩ "debian".data
        ⟨0, [], [some ⟨401, [], none⟩, some ⟨401, [], none⟩], 0, []⟩).1
      = (getManifests ⟨[], []⟩ (GetRepository "debian".data).1
          (GetRepository "debian".data).2.1 (GetRepository "debian".data).2.2
          ⟨0, [], [some ⟨401, [], none⟩], 0, []⟩).1) ∧
    (GetManifests ⟨[], []⟩ "debian".data
        ⟨0, [], [some ⟨401, [], none⟩, some ⟨401, [], none⟩], 0, []⟩).1
      = .error (.registryError 401 []) :=
  ⟨GetManifests_bare401_retry ⟨[], []⟩ "debian".data
    ⟨0, [], [some ⟨401, [], none⟩, some ⟨401, [], none⟩], 0, []⟩
    ⟨401, [], none⟩ [some ⟨401, [], none⟩] rfl rfl (by decide),
   by decide⟩
